import Mathlib

/-!
Shallow embedding of the mys-gas-pool gas-station service sources
(`src/rpc/rpc_types.rs`, `src/lib.rs`, `src/tx_signer.rs`, `src/mys_client.rs`)
together with theorems settling the specification claims about them.

Machine integers (`u64`) are modelled as `Nat`, with an explicit `% 2 ^ 64`
wherever overflow could matter. Fallible Rust code (`anyhow::Result`,
panics) is modelled with `Except String`. IO-boundaries (HTTP, JSON-RPC,
the fullnode) are modelled by passing the observed responses in as data.
-/

/-! ## Basic chain data model -/

/-- An on-chain address (an array of 32 bytes in the source, modelled as an
abstract value with decidable equality). -/
structure MysAddress where
  val : Nat
deriving DecidableEq, Repr

/-- ReservationID from `types.rs`: a `u64`. -/
abbrev ReservationID := Nat

/-- An `ObjectRef` / `MysObjectRef`: `(object_id, version, digest)`. -/
structure MysObjectRef where
  object_id : Nat
  version : Nat
  digest : Nat
deriving DecidableEq, Repr

/-- `GasCoin` from `types.rs`: an object reference together with its balance. -/
structure GasCoin where
  object_ref : MysObjectRef
  balance : Nat
deriving DecidableEq, Repr

/-- The `Owner` enum of `mys_types::object`. -/
inductive Owner where
  | addressOwner (addr : MysAddress)
  | objectOwner (addr : MysAddress)
  | shared (initial_shared_version : Nat)
  | immutable
deriving DecidableEq, Repr

/-- Opaque stand-in for `MysTransactionBlockEffects`. -/
structure MysTransactionBlockEffects where
  val : Nat
deriving DecidableEq, Repr

/-! ## `rpc/rpc_types.rs` -/

/-- `MAX_BUDGET` from `rpc_types.rs` (2 MYS). -/
def MAX_BUDGET : Nat := 2000000000

/-- `MAX_DURATION_S` from `rpc_types.rs` (10 mins). -/
def MAX_DURATION_S : Nat := 10 * 60

/-- `ReserveGasRequest` from `rpc_types.rs`. Both fields are `u64`. -/
structure ReserveGasRequest where
  gas_budget : Nat
  reserve_duration_secs : Nat
deriving DecidableEq, Repr

/-- `ReserveGasRequest::check_validity`, translated clause by clause from the
source: four guard clauses, each bailing with an error message, then `Ok(())`. -/
def ReserveGasRequest.check_validity (r : ReserveGasRequest) : Except String Unit :=
  if r.gas_budget = 0 then
    .error ("Gas budget must be positive")
  else if r.gas_budget > MAX_BUDGET then
    .error ("Gas budget must be less than MAX_BUDGET")
  else if r.reserve_duration_secs = 0 then
    .error ("Reserve duration must be positive")
  else if r.reserve_duration_secs > MAX_DURATION_S then
    .error ("Reserve duration must be less than MAX_DURATION_S seconds")
  else
    .ok ()

/-- `ReserveGasResult` from `rpc_types.rs`. -/
structure ReserveGasResult where
  sponsor_address : MysAddress
  reservation_id : ReservationID
  gas_coins : List MysObjectRef
deriving DecidableEq, Repr

/-- `ReserveGasResponse` from `rpc_types.rs`: both fields are nullable. -/
structure ReserveGasResponse where
  result : Option ReserveGasResult
  error : Option String
deriving DecidableEq, Repr

/-- `ReserveGasResponse::new_ok`: wraps the arguments in `Some(result)` and
sets `error` to `None`. The `ObjectRef → MysObjectRef` conversion of the
source is the identity in this model. -/
def ReserveGasResponse.new_ok (sponsor_address : MysAddress)
    (reservation_id : ReservationID) (gas_coins : List MysObjectRef) :
    ReserveGasResponse :=
  { result := some { sponsor_address := sponsor_address,
                     reservation_id := reservation_id,
                     gas_coins := gas_coins },
    error := none }

/-- `ReserveGasResponse::new_err`: `result` is `None`, `error` holds the
message of the given error. -/
def ReserveGasResponse.new_err (error : String) : ReserveGasResponse :=
  { result := none, error := some error }

/-- `ExecuteTxResponse` from `rpc_types.rs`. -/
structure ExecuteTxResponse where
  effects : Option MysTransactionBlockEffects
  error : Option String
deriving DecidableEq, Repr

/-- `ExecuteTxResponse::new_ok`. -/
def ExecuteTxResponse.new_ok (effects : MysTransactionBlockEffects) :
    ExecuteTxResponse :=
  { effects := some effects, error := none }

/-- `ExecuteTxResponse::new_err`. -/
def ExecuteTxResponse.new_err (error : String) : ExecuteTxResponse :=
  { effects := none, error := some error }

/-! ## `lib.rs` -/

/-- `AUTH_ENV_NAME` from `lib.rs`. -/
def AUTH_ENV_NAME : String := "GAS_STATION_AUTH"

/-- `read_auth_env` from `lib.rs`. The process environment is modelled as a
partial map from variable names to values; `std::env::var(..).ok()` is `env
AUTH_ENV_NAME`, the `unwrap_or_else(|| panic!(..))` on `None` is modelled as
`Except.error` carrying the panic message, and the trailing infallible
`.parse::<String>().unwrap()` is the identity. -/
def read_auth_env (env : String → Option String) : Except String String :=
  match env AUTH_ENV_NAME with
  | some v => .ok v
  | none => .error (AUTH_ENV_NAME ++ " environment variable must be specified")

/-! ## `tx_signer.rs`: the `TxSigner` trait default method -/

/-- The provided (default) method `TxSigner::is_valid_address`, parametrised
by the value `get_address()` returns for the implementation at hand:
`self.get_address() == *address`. Neither implementation in the source
overrides it. -/
def TxSigner.is_valid_address (get_address : MysAddress) (address : MysAddress) :
    Bool :=
  get_address = address

/-! ## `tx_signer.rs`: `SidecarTxSigner::sign_transaction` -/

/-- Opaque stand-in for `GenericSignature`. -/
structure GenericSignature where
  val : Nat
deriving DecidableEq, Repr

/-- The observable outcome of the HTTP POST to the sidecar's sign-transaction
endpoint, with `serde_json` parsing of the body abstracted at the library
boundary: `parse_error_resp` is the result of
`serde_json::from_str::<ErrorResponse>(body)` (`some e` when the body parses
as an error object with message `e`), and `parse_sig_resp` the result of
`serde_json::from_str::<SignatureResponse>(body)` (`some s` when it parses as
a signature object carrying string `s`). -/
structure SidecarResponse where
  status_is_success : Bool
  body_text : String
  parse_error_resp : Option String
  parse_sig_resp : Option String

/-- `SidecarTxSigner::sign_transaction`, translated from the source given the
observed sidecar response. `from_str` models `GenericSignature::from_str`
(the external signature decoder): the code first rejects non-success HTTP
statuses, then tries to parse the body as an error object, then as a
signature object, and finally decodes the signature string. -/
def SidecarTxSigner.sign_transaction
    (from_str : String → Option GenericSignature) (resp : SidecarResponse) :
    Except String GenericSignature :=
  if resp.status_is_success = false then
    .error ("KMS sidecar returned error status: " ++ resp.body_text)
  else
    match resp.parse_error_resp with
    | some e => .error ("KMS sidecar error: " ++ e)
    | none =>
      match resp.parse_sig_resp with
      | none => .error ("Failed to parse KMS sidecar response: " ++ resp.body_text)
      | some s =>
        match from_str s with
        | none => .error ("invalid signature string")
        | some sig => .ok sig

/-! ## `mys_client.rs` -/

/-- The raw BCS data attached to a `MysObjectResponse` when requested with
`with_bcs`: either a Move object (for which `try_as_move` succeeds, carrying
its type tag and BCS bytes) or a Move package (for which it fails). -/
inductive MysRawData where
  | moveObject (type_tag : String) (bcs_bytes : List Nat)
  | movePackage
deriving DecidableEq, Repr

/-- The fields of `MysObjectData` this codebase reads: the identifying triple
behind `object_ref()`, the optional `owner` (populated under `with_owner`)
and the optional raw `bcs` data (populated under `with_bcs`). -/
structure MysObjectData where
  object_id : Nat
  version : Nat
  digest : Nat
  owner : Option Owner
  bcs : Option MysRawData
deriving DecidableEq, Repr

/-- `MysObjectData::object_ref()`. -/
def MysObjectData.object_ref (d : MysObjectData) : MysObjectRef :=
  { object_id := d.object_id, version := d.version, digest := d.digest }

/-- `MysObjectResponse`: `data` is absent when the object does not exist
(or the read failed for that object). -/
structure MysObjectResponse where
  data : Option MysObjectData
deriving DecidableEq, Repr

/-- The Move type tag `mys_types::gas_coin::GasCoin::type_()` compared
against in `try_get_mys_coin_balance`. -/
def gas_coin_type_tag : String := "0x2::coin::Coin<0x2::mys::MYS>"

/-- Little-endian byte decoding, as used by BCS for a `u64`. -/
def le_bytes_to_nat (bytes : List Nat) : Nat :=
  bytes.foldr (fun b acc => b + 256 * acc) 0

/-- `bcs::from_bytes::<GasCoin>`: a Move gas coin serialises as its 32-byte
`UID` followed by the little-endian `u64` balance, and BCS rejects inputs of
any other length (trailing or missing bytes). Returns the decoded balance. -/
def bcs_from_bytes_gas_coin (bytes : List Nat) : Option Nat :=
  if bytes.length = 40 then some (le_bytes_to_nat (bytes.drop 32)) else none

/-- `MysClient::try_get_mys_coin_balance`, translated from the source: the
chain of early `None` returns (`data` absent, `bcs` absent, not a Move
object, wrong type tag, BCS deserialisation failure) followed by the
successful construction of a `GasCoin` from `object_ref()` and the decoded
balance. -/
def try_get_mys_coin_balance (object : MysObjectResponse) : Option GasCoin :=
  match object.data with
  | none => none
  | some data =>
    match data.bcs with
    | none => none
    | some .movePackage => none
    | some (.moveObject type_tag bcs_bytes) =>
      if type_tag ≠ gas_coin_type_tag then none
      else
        match bcs_from_bytes_gas_coin bcs_bytes with
        | none => none
        | some balance => some { object_ref := data.object_ref, balance := balance }

/-- The per-object binding performed by `MysClient::get_latest_gas_objects`
once the (chunked, retried) reads have produced a response for every queried
id: each id is bound to `try_get_mys_coin_balance` of its response. The
chunking in groups of 50 and the infinite retry only affect how the
responses are fetched, not the resulting bindings. -/
def get_latest_gas_objects (responses : List (Nat × MysObjectResponse)) :
    List (Nat × Option GasCoin) :=
  responses.map (fun p => (p.1, try_get_mys_coin_balance p.2))

/-- `SPLIT_COUNT` from `MysClient::calibrate_gas_cost_per_object`. -/
def SPLIT_COUNT : Nat := 500

/-- The arithmetic performed by `MysClient::calibrate_gas_cost_per_object` on
the `gas_used` reported by dev-inspect of the `PaySplitN(500)` call:
`gas_used / SPLIT_COUNT * 2` in `u64` arithmetic (division first, then the
doubling, which wraps modulo `2 ^ 64`). -/
def calibrate_gas_cost_per_object (gas_used : Nat) : Nat :=
  gas_used / SPLIT_COUNT * 2 % 2 ^ 64

/-- One iteration's observation in `MysClient::wait_for_object`: `some v`
when `get_object_with_options` returned `Ok` with `data` present at version
`v`, `none` when it returned an error or no data. -/
abbrev PollResult := Option Nat

/-- `MysClient::wait_for_object`, modelled over the (finite prefix of the)
sequence of poll results the fullnode produces, one every 200 ms: returns
the index of the poll at which the loop breaks, or `none` when no poll in
the given trace triggers the break (the loop would still be running after
the whole trace). The break condition is translated from the source:
`data.version == obj_ref.1`. -/
def wait_for_object_loop (requested_version : Nat) :
    List PollResult → Option Nat
  | [] => none
  | poll :: rest =>
    match poll with
    | some v =>
      if v = requested_version then some 0
      else (wait_for_object_loop requested_version rest).map Nat.succ
    | none => (wait_for_object_loop requested_version rest).map Nat.succ

/-- One page returned by `coin_read_api().get_coins`: its coins and the
`has_next_page` flag. A coin is modelled by what the code reads of it:
`object_ref()` and `balance` (a `GasCoin`). -/
structure CoinPage where
  data : List GasCoin
  has_next_page : Bool
deriving DecidableEq, Repr

/-- `MysClient::get_all_owned_mys_coins_above_balance_threshold`, modelled
over the sequence of pages the fullnode serves: each iteration keeps the
coins of the current page whose balance is at least the threshold, then
continues with the next page when `has_next_page` is set and stops
otherwise. The infinite retry around each page fetch is absorbed into the
page sequence. -/
def get_all_owned_mys_coins_above_balance_threshold (balance_threshold : Nat) :
    List CoinPage → List GasCoin
  | [] => []
  | page :: rest =>
    if page.has_next_page then
      page.data.filter (fun c => balance_threshold ≤ c.balance) ++
        get_all_owned_mys_coins_above_balance_threshold balance_threshold rest
    else
      page.data.filter (fun c => balance_threshold ≤ c.balance)

/-- A pagination trace as the fullnode actually produces it: at least one
page, every page but the last announcing a next page, and the last one not. -/
def proper_pagination : List CoinPage → Prop
  | [] => False
  | [page] => page.has_next_page = false
  | page :: rest => page.has_next_page = true ∧ proper_pagination rest

/-- The body of one attempt of `MysClient::multi_get_object_owners`: walk the
responses, bail out with an error as soon as one has no `data` or no `owner`,
and otherwise collect `(object_id, (owner, version))` for every response into
the map (modelled as an association list; lookups take the first hit, so
later inserts for a duplicate id would shadow earlier ones under `cons`). -/
def multi_get_object_owners_once :
    List MysObjectResponse → Except String (List (Nat × Owner × Nat))
  | [] => .ok []
  | r :: rest =>
    match r.data with
    | none => .error ("Failed to get object owner: no data")
    | some data =>
      match data.owner with
      | none => .error ("Failed to get object owner: no owner")
      | some owner =>
        match multi_get_object_owners_once rest with
        | .error e => .error e
        | .ok m => .ok ((data.object_id, owner, data.version) :: m)

/-- Modelled from the spec: the `retry_with_max_attempts` macro used by
`multi_get_object_owners` is exported from a module that is not among the
provided sources; per the spec it is a bounded retry that runs the operation
up to `max_attempts` times, stopping at the first success and otherwise
surfacing the last error. The operation's successive outcomes are passed in
as a trace; the result is paired with the number of attempts consumed. -/
def retry_with_max_attempts {α : Type} :
    Nat → List (Except String α) → Except String α × Nat
  | 0, _ => (.error ("retry budget exhausted"), 0)
  | _ + 1, [] => (.error ("no attempt outcome available"), 0)
  | n + 1, attempt :: rest =>
    match attempt with
    | .ok v => (.ok v, 1)
    | .error e =>
      if n = 0 then (.error e, 1)
      else
        let r := retry_with_max_attempts n rest
        (r.1, r.2 + 1)

/-- `MysClient::multi_get_object_owners`: the attempt body wrapped in
`retry_with_max_attempts` with 3 attempts. `attempts` is the sequence of
response lists the chain would serve to the successive attempts. -/
def multi_get_object_owners (attempts : List (List MysObjectResponse)) :
    Except String (List (Nat × Owner × Nat)) × Nat :=
  retry_with_max_attempts 3 (attempts.map multi_get_object_owners_once)

/-! ## Theorems -/

/-- C1: `ReserveGasRequest::check_validity` returns `Ok` if and only if
`0 < gas_budget ≤ 2_000_000_000` and `0 < reserve_duration_secs ≤ 600`;
consequently every request violating either bound (zero, or above the
maximum) is rejected with an error, and requests exactly at the maxima are
accepted. -/
theorem check_validity_ok_iff (r : ReserveGasRequest) :
    r.check_validity = .ok () ↔
      (0 < r.gas_budget ∧ r.gas_budget ≤ 2000000000 ∧
       0 < r.reserve_duration_secs ∧ r.reserve_duration_secs ≤ 600) := by
  unfold ReserveGasRequest.check_validity MAX_BUDGET MAX_DURATION_S
  split_ifs with h1 h2 h3 h4 <;> simp_all
  omega

/-- Witness for C1: the request exactly at both maxima is accepted, and the
request with a zero gas budget is rejected. -/
theorem check_validity_ok_iff_witness :
    ReserveGasRequest.check_validity ⟨2000000000, 600⟩ = .ok () ∧
    ReserveGasRequest.check_validity ⟨0, 600⟩ ≠ .ok () := by
  constructor
  · exact (check_validity_ok_iff ⟨2000000000, 600⟩).mpr (by norm_num)
  · intro h
    have hc := (check_validity_ok_iff ⟨0, 600⟩).mp h
    simp at hc

/-- C2: on every `gas_used` value a `u64` can hold, the calibration
arithmetic of `MysClient::calibrate_gas_cost_per_object` returns twice the
(integer) quotient of `gas_used` by the split count 500. -/
theorem calibrate_gas_cost_per_object_eq (gas_used : Nat)
    (h : gas_used < 2 ^ 64) :
    calibrate_gas_cost_per_object gas_used = 2 * (gas_used / 500) := by
  unfold calibrate_gas_cost_per_object SPLIT_COUNT
  have hb : (2 : Nat) ^ 64 = 18446744073709551616 := by norm_num
  rw [hb]
  omega

/-- Witness for C2: calibration at a concrete `gas_used`. -/
theorem calibrate_gas_cost_per_object_eq_witness :
    calibrate_gas_cost_per_object 1234567 = 2 * (1234567 / 500) :=
  calibrate_gas_cost_per_object_eq 1234567 (by norm_num)

/-- C5: the constructors `new_ok` and `new_err` of `ReserveGasResponse` and
`ExecuteTxResponse` each populate exactly one of the result/effects field and
the error field: `new_ok` yields `Some` result (resp. effects) and no error,
`new_err` yields `Some` error and no result (resp. effects). -/
theorem responses_new_ok_new_err_exactly_one :
    (∀ a i cs, (ReserveGasResponse.new_ok a i cs).result.isSome = true ∧
       (ReserveGasResponse.new_ok a i cs).error = none) ∧
    (∀ e, (ReserveGasResponse.new_err e).result = none ∧
       (ReserveGasResponse.new_err e).error.isSome = true) ∧
    (∀ fx, (ExecuteTxResponse.new_ok fx).effects.isSome = true ∧
       (ExecuteTxResponse.new_ok fx).error = none) ∧
    (∀ e, (ExecuteTxResponse.new_err e).effects = none ∧
       (ExecuteTxResponse.new_err e).error.isSome = true) :=
  ⟨fun _ _ _ => ⟨rfl, rfl⟩, fun _ => ⟨rfl, rfl⟩,
   fun _ => ⟨rfl, rfl⟩, fun _ => ⟨rfl, rfl⟩⟩

/-- C9: `read_auth_env` returns the value of the `GAS_STATION_AUTH`
environment variable when it is set, and fails fatally (the modelled panic)
with the configuration message when the variable is absent. -/
theorem read_auth_env_spec (env : String → Option String) :
    (∀ v, env AUTH_ENV_NAME = some v → read_auth_env env = .ok v) ∧
    (env AUTH_ENV_NAME = none →
      read_auth_env env =
        .error (AUTH_ENV_NAME ++ " environment variable must be specified")) := by
  constructor
  · intro v h
    simp [read_auth_env, h]
  · intro h
    simp [read_auth_env, h]

/-- An environment with the auth variable set. -/
def env_with_auth : String → Option String :=
  fun name => if name = AUTH_ENV_NAME then some ("secret-token") else none

/-- Witness for C9: a set variable is returned, an absent one panics. -/
theorem read_auth_env_spec_witness :
    read_auth_env env_with_auth = .ok ("secret-token") ∧
    read_auth_env (fun _ => none) =
      .error (AUTH_ENV_NAME ++ " environment variable must be specified") := by
  constructor
  · have h := (read_auth_env_spec env_with_auth).1
    exact h _ (by simp [env_with_auth])
  · exact (read_auth_env_spec (fun _ => none)).2 rfl

/-- C10: the default `TxSigner::is_valid_address` accepts an address exactly
when it equals `get_address()`; in particular the sponsor's own address is
always accepted. -/
theorem is_valid_address_iff (get_address address : MysAddress) :
    (TxSigner.is_valid_address get_address address = true ↔
      address = get_address) ∧
    TxSigner.is_valid_address get_address get_address = true := by
  unfold TxSigner.is_valid_address
  constructor
  · simp [eq_comm]
  · simp

/-- Witness for C10: the sponsor address accepts itself and rejects another. -/
theorem is_valid_address_iff_witness :
    TxSigner.is_valid_address ⟨5⟩ ⟨5⟩ = true ∧
    TxSigner.is_valid_address ⟨5⟩ ⟨7⟩ = false := by
  constructor
  · exact (is_valid_address_iff ⟨5⟩ ⟨5⟩).2
  · have h := (is_valid_address_iff ⟨5⟩ ⟨7⟩).1
    revert h
    decide

/-- C3 counterexample: the single poll reports version 2, which is greater
than or equal to the requested version 1, yet `wait_for_object` does not
break there — the trace is exhausted with the loop still running — because
the source breaks only on `data.version == obj_ref.1` (exact equality). -/
theorem wait_for_object_ge_counterexample :
    (2 : Nat) ≥ 1 ∧ wait_for_object_loop 1 [some 2] = none :=
  ⟨by norm_num, rfl⟩

/-- C3 amended: `wait_for_object`, polling every 200 ms, returns at the
first poll whose reported version is exactly equal to the requested version
`obj_ref.1`, and it terminates on a poll trace precisely when some poll
reports exactly the requested version; a reported version merely above the
requested one does not stop the loop. -/
theorem wait_for_object_loop_first_eq (requested : Nat)
    (polls : List PollResult) :
    ((wait_for_object_loop requested polls).isSome = true ↔
      some requested ∈ polls) ∧
    (∀ i, wait_for_object_loop requested polls = some i →
      polls.get? i = some (some requested) ∧
      ∀ j, j < i → polls.get? j ≠ some (some requested)) := by
  induction polls with
  | nil => simp [wait_for_object_loop]
  | cons p rest ih =>
    have hstep : ∀ (hne : ∀ v, p = some v → v ≠ requested),
        wait_for_object_loop requested (p :: rest) =
          (wait_for_object_loop requested rest).map Nat.succ := by
      intro hne
      cases p with
      | none => rfl
      | some v =>
        have : v ≠ requested := hne v rfl
        simp [wait_for_object_loop, this]
    by_cases hhit : p = some requested
    · subst hhit
      constructor
      · simp [wait_for_object_loop]
      · intro i hi
        simp [wait_for_object_loop] at hi
        subst hi
        exact ⟨rfl, fun j hj => absurd hj (Nat.not_lt_zero j)⟩
    · have hne : ∀ v, p = some v → v ≠ requested := by
        intro v hv hva
        exact hhit (hv.trans (by rw [hva]))
      rw [hstep hne]
      constructor
      · have hmap : ∀ (x : Option Nat), (x.map Nat.succ).isSome = x.isSome := by
          intro x
          cases x <;> rfl
        rw [hmap]
        rw [ih.1]
        simp only [List.mem_cons]
        constructor
        · exact fun h => Or.inr h
        · rintro (h | h)
          · exact absurd h.symm hhit
          · exact h
      · intro i hi
        rcases hrest : wait_for_object_loop requested rest with _ | k
        · rw [hrest] at hi
          simp at hi
        · rw [hrest] at hi
          have hik : i = k + 1 := by
            cases hi
            rfl
          obtain ⟨h1, h2⟩ := ih.2 k hrest
          subst hik
          refine ⟨by simpa using h1, ?_⟩
          intro j hj
          cases j with
          | zero =>
            simp only [List.get?]
            intro hc
            exact hhit (by injection hc)
          | succ j2 =>
            simp only [List.get?]
            exact h2 j2 (Nat.lt_of_succ_lt_succ hj)

/-- Witness for C3's amended theorem: on the trace `[none, some 4, some 3]`
with requested version 3, the loop breaks at index 2, where the poll reports
exactly version 3, and not at index 1 where it reports 4. -/
theorem wait_for_object_loop_first_eq_witness :
    ((wait_for_object_loop 3 [none, some 4, some 3]).isSome = true ↔
      some 3 ∈ [none, some 4, some 3]) ∧
    [none, some 4, some 3].get? 2 = some (some 3) ∧
    [none, some 4, some 3].get? 1 ≠ some (some 3) := by
  have h := wait_for_object_loop_first_eq 3 [none, some 4, some 3]
  have h2 := h.2 2 (by decide)
  exact ⟨h.1, h2.1, h2.2 1 (by norm_num)⟩

/-- A response for an object the chain still holds (its `data` is present)
whose content is a Move object that is not a MYS gas coin. -/
def non_coin_response : MysObjectResponse :=
  { data := some { object_id := 1, version := 1, digest := 1, owner := none,
                   bcs := some (.moveObject ("0x2::example::Widget") []) } }

/-- C4 counterexample: an object the chain still holds, but whose content is
not a MYS gas coin, is bound to `none` by `get_latest_gas_objects`, refuting
the claim that the map binds an id to `None` if and only if the object no
longer exists on chain. -/
theorem get_latest_gas_objects_none_counterexample :
    non_coin_response.data ≠ none ∧
    get_latest_gas_objects [(1, non_coin_response)] = [(1, none)] := by
  constructor
  · simp [non_coin_response]
  · rfl

/-- C4 amended: `get_latest_gas_objects` binds each queried id to the value
`try_get_mys_coin_balance` computes on its response; that value is `some`
coin exactly when the object still exists *and* its content is a Move object
of the MYS gas-coin type whose BCS bytes deserialise (32-byte UID plus u64
balance), in which case the coin carries the object's current
`(object_id, version, digest)` reference and decoded balance. An id whose
object no longer exists is always bound to `none`, but so is one whose
object exists with non-gas-coin content. -/
theorem get_latest_gas_objects_binding (id : Nat) (resp : MysObjectResponse) :
    get_latest_gas_objects [(id, resp)] =
      [(id, try_get_mys_coin_balance resp)] ∧
    ((∃ c, try_get_mys_coin_balance resp = some c) ↔
      (∃ d t bs, resp.data = some d ∧ d.bcs = some (.moveObject t bs) ∧
        t = gas_coin_type_tag ∧ bs.length = 40)) ∧
    (resp.data = none → try_get_mys_coin_balance resp = none) ∧
    (∀ d t bs, resp.data = some d → d.bcs = some (.moveObject t bs) →
      t = gas_coin_type_tag → bs.length = 40 →
      try_get_mys_coin_balance resp =
        some { object_ref := d.object_ref,
               balance := le_bytes_to_nat (bs.drop 32) }) := by
  obtain ⟨data⟩ := resp
  rcases data with _ | d
  · refine ⟨rfl, by simp [try_get_mys_coin_balance], fun _ => rfl, ?_⟩
    intro d t bs hd
    simp at hd
  · obtain ⟨oid, ver, dig, own, bcs⟩ := d
    rcases bcs with _ | raw
    · refine ⟨rfl, by simp [try_get_mys_coin_balance], ?_, ?_⟩
      · intro h
        simp at h
      · intro d t bs hd hb
        injection hd with hd2
        subst hd2
        simp at hb
    · rcases raw with ⟨t, bs⟩ | _
      · by_cases ht : t = gas_coin_type_tag
        · subst ht
          by_cases hl : bs.length = 40
          · have hval : try_get_mys_coin_balance
                ⟨some ⟨oid, ver, dig, own,
                  some (.moveObject gas_coin_type_tag bs)⟩⟩ =
                some ⟨⟨oid, ver, dig⟩, le_bytes_to_nat (bs.drop 32)⟩ := by
              simp [try_get_mys_coin_balance, bcs_from_bytes_gas_coin, hl,
                MysObjectData.object_ref]
            refine ⟨rfl, ?_, ?_, ?_⟩
            · rw [hval]
              constructor
              · intro _
                exact ⟨_, gas_coin_type_tag, bs, rfl, rfl, rfl, hl⟩
              · intro _
                exact ⟨_, rfl⟩
            · intro h
              simp at h
            · intro d t2 bs2 hd hb ht2 hl2
              injection hd with hd2
              subst hd2
              have hb2 := Option.some.inj hb
              injection hb2 with hbt hbb
              subst hbb
              exact hval
          · have hnone : try_get_mys_coin_balance
                ⟨some ⟨oid, ver, dig, own,
                  some (.moveObject gas_coin_type_tag bs)⟩⟩ = none := by
              simp [try_get_mys_coin_balance, bcs_from_bytes_gas_coin, hl]
            refine ⟨rfl, ?_, ?_, ?_⟩
            · constructor
              · rintro ⟨c, hc⟩
                rw [hnone] at hc
                exact absurd hc (by simp)
              · rintro ⟨d, t2, bs2, hd, hb, ht2, hl2⟩
                injection hd with hd2
                subst hd2
                have hb2 := Option.some.inj hb
                injection hb2 with hbt hbb
                exact absurd (hbb ▸ hl2) hl
            · intro h
              simp at h
            · intro d t2 bs2 hd hb ht2 hl2
              injection hd with hd2
              subst hd2
              have hb2 := Option.some.inj hb
              injection hb2 with hbt hbb
              exact absurd (hbb ▸ hl2) hl
        · have hnone : try_get_mys_coin_balance
              ⟨some ⟨oid, ver, dig, own, some (.moveObject t bs)⟩⟩ = none := by
            simp [try_get_mys_coin_balance, ht]
          refine ⟨rfl, ?_, ?_, ?_⟩
          · constructor
            · rintro ⟨c, hc⟩
              rw [hnone] at hc
              exact absurd hc (by simp)
            · rintro ⟨d, t2, bs2, hd, hb, ht2, hl2⟩
              injection hd with hd2
              subst hd2
              have hb2 := Option.some.inj hb
              injection hb2 with hbt hbb
              exact absurd (hbt.trans ht2) ht
          · intro h
            simp at h
          · intro d t2 bs2 hd hb ht2 hl2
            injection hd with hd2
            subst hd2
            have hb2 := Option.some.inj hb
            injection hb2 with hbt hbb
            exact absurd (hbt.trans ht2) ht
      · refine ⟨rfl, by simp [try_get_mys_coin_balance], ?_, ?_⟩
        · intro h
          simp at h
        · intro d t2 bs2 hd hb ht2 hl2
          injection hd with hd2
          subst hd2
          have hb2 := Option.some.inj hb
          exact absurd hb2 (by simp)

/-- A well-formed gas-coin response: 32 UID bytes then the balance 5
little-endian. -/
def coin_response : MysObjectResponse :=
  { data := some { object_id := 9, version := 3, digest := 7, owner := none,
                   bcs := some (.moveObject gas_coin_type_tag
                     (List.replicate 32 0 ++ [5, 0, 0, 0, 0, 0, 0, 0])) } }

/-- Witness for C4's amended theorem: a queried id whose object holds a
decodable MYS gas coin of balance 5 is bound to that coin. -/
theorem get_latest_gas_objects_binding_witness :
    get_latest_gas_objects [(9, coin_response)] =
      [(9, some { object_ref := { object_id := 9, version := 3, digest := 7 },
                  balance := 5 })] := by
  have h := get_latest_gas_objects_binding 9 coin_response
  have hv := h.2.2.2 _ _ _ rfl rfl rfl (by decide)
  rw [h.1, hv]
  rfl

/-- C6: `SidecarTxSigner::sign_transaction` errors whenever the HTTP status
is not a success, whenever the body parses as an error object (even under a
success status), and whenever the body parses as neither an error nor a
signature object; it returns `Ok(signature)` exactly when the status is a
success, the body does not parse as an error object, parses as a signature
object, and the carried signature string decodes. -/
theorem sidecar_sign_transaction_spec
    (from_str : String → Option GenericSignature) (resp : SidecarResponse) :
    (resp.status_is_success = false →
      ∃ e, SidecarTxSigner.sign_transaction from_str resp = .error e) ∧
    (∀ e, resp.status_is_success = true → resp.parse_error_resp = some e →
      SidecarTxSigner.sign_transaction from_str resp =
        .error ("KMS sidecar error: " ++ e)) ∧
    (resp.status_is_success = true → resp.parse_error_resp = none →
      resp.parse_sig_resp = none →
      ∃ e, SidecarTxSigner.sign_transaction from_str resp = .error e) ∧
    (∀ s sig, resp.status_is_success = true → resp.parse_error_resp = none →
      resp.parse_sig_resp = some s → from_str s = some sig →
      SidecarTxSigner.sign_transaction from_str resp = .ok sig) ∧
    ((∃ sig, SidecarTxSigner.sign_transaction from_str resp = .ok sig) ↔
      (resp.status_is_success = true ∧ resp.parse_error_resp = none ∧
       ∃ s sig, resp.parse_sig_resp = some s ∧ from_str s = some sig)) := by
  obtain ⟨st, body, perr, psig⟩ := resp
  cases st
  · refine ⟨fun _ => ⟨_, rfl⟩, ?_, ?_, ?_, ?_⟩
    · intro e h
      simp at h
    · intro h
      simp at h
    · intro s sig h
      simp at h
    · constructor
      · rintro ⟨sig, hsig⟩
        exact absurd hsig (by simp [SidecarTxSigner.sign_transaction])
      · rintro ⟨h, -⟩
        simp at h
  · rcases perr with _ | e
    · rcases psig with _ | s
      · refine ⟨?_, ?_, fun _ _ _ => ⟨_, rfl⟩, ?_, ?_⟩
        · intro h
          simp at h
        · intro e _ h
          simp at h
        · intro s sig _ _ h
          simp at h
        · constructor
          · rintro ⟨sig, hsig⟩
            exact absurd hsig (by simp [SidecarTxSigner.sign_transaction])
          · rintro ⟨-, -, s, sig, h, -⟩
            simp at h
      · rcases hdec : from_str s with _ | sig
        · refine ⟨?_, ?_, ?_, ?_, ?_⟩
          · intro h
            simp at h
          · intro e _ h
            simp at h
          · intro _ _ h
            simp at h
          · intro s2 sig _ _ hs2 hsig
            have hs : s2 = s := by
              injection hs2 with h
              exact h.symm
            subst hs
            rw [hdec] at hsig
            exact absurd hsig (by simp)
          · constructor
            · rintro ⟨sig, hsig⟩
              have : SidecarTxSigner.sign_transaction from_str
                  ⟨true, body, none, some s⟩ =
                  .error ("invalid signature string") := by
                simp [SidecarTxSigner.sign_transaction, hdec]
              rw [this] at hsig
              exact absurd hsig (by simp)
            · rintro ⟨-, -, s2, sig, hs2, hsig⟩
              have hs : s2 = s := by
                injection hs2 with h
                exact h.symm
              subst hs
              rw [hdec] at hsig
              exact absurd hsig (by simp)
        · refine ⟨?_, ?_, ?_, ?_, ?_⟩
          · intro h
            simp at h
          · intro e _ h
            simp at h
          · intro _ _ h
            simp at h
          · intro s2 sig2 _ _ hs2 hsig
            have hs : s2 = s := by
              injection hs2 with h
              exact h.symm
            subst hs
            rw [hdec] at hsig
            have : sig2 = sig := by
              injection hsig with h
              exact h.symm
            subst this
            simp [SidecarTxSigner.sign_transaction, hdec]
          · constructor
            · rintro ⟨sig2, -⟩
              exact ⟨rfl, rfl, s, sig, rfl, hdec⟩
            · rintro -
              refine ⟨sig, ?_⟩
              simp [SidecarTxSigner.sign_transaction, hdec]
    · refine ⟨?_, ?_, ?_, ?_, ?_⟩
      · intro h
        simp at h
      · intro e2 _ he2
        have he : e2 = e := by
          injection he2 with h
          exact h.symm
        subst he
        simp [SidecarTxSigner.sign_transaction]
      · intro _ h
        simp at h
      · intro s sig _ h
        simp at h
      · constructor
        · rintro ⟨sig, hsig⟩
          exact absurd hsig (by simp [SidecarTxSigner.sign_transaction])
        · rintro ⟨-, h, -⟩
          simp at h

/-- Witness for C6: a success status with a body parsing only as a signature
object whose string decodes yields `Ok` of the decoded signature, while a
success status with a body parsing as an error object yields an error. -/
theorem sidecar_sign_transaction_spec_witness :
    SidecarTxSigner.sign_transaction (fun _ => some ⟨1⟩)
      ⟨true, "body", none, some ("sigstring")⟩ = .ok ⟨1⟩ ∧
    SidecarTxSigner.sign_transaction (fun _ => some ⟨1⟩)
      ⟨true, "body", some ("boom"), some ("sigstring")⟩ =
      .error ("KMS sidecar error: " ++ "boom") := by
  constructor
  · have h := (sidecar_sign_transaction_spec (fun _ => some ⟨1⟩)
      ⟨true, "body", none, some ("sigstring")⟩).2.2.2.1
    exact h _ _ rfl rfl rfl rfl
  · have h := (sidecar_sign_transaction_spec (fun _ => some ⟨1⟩)
      ⟨true, "body", some ("boom"), some ("sigstring")⟩).2.1
    exact h _ rfl rfl

/-- The bounded retry consumes at most its attempt budget. -/
theorem retry_with_max_attempts_le {α : Type} (n : Nat)
    (attempts : List (Except String α)) :
    (retry_with_max_attempts n attempts).2 ≤ n := by
  induction n generalizing attempts with
  | zero => simp [retry_with_max_attempts]
  | succ n ih =>
    rcases attempts with _ | ⟨a, rest⟩
    · simp [retry_with_max_attempts]
    · rcases a with e | v
      · by_cases hn : n = 0
        · subst hn
          simp [retry_with_max_attempts]
        · have h2 := ih rest
          simp [retry_with_max_attempts, hn]
          omega
      · simp [retry_with_max_attempts]

/-- A success out of the bounded retry is the success of one of the first
`n` attempt outcomes. -/
theorem retry_with_max_attempts_ok_mem {α : Type} (n : Nat)
    (attempts : List (Except String α)) (v : α)
    (h : (retry_with_max_attempts n attempts).1 = .ok v) :
    Except.ok v ∈ attempts.take n := by
  induction n generalizing attempts with
  | zero => simp [retry_with_max_attempts] at h
  | succ n ih =>
    rcases attempts with _ | ⟨a, rest⟩
    · simp [retry_with_max_attempts] at h
    · rcases a with e | w
      · by_cases hn : n = 0
        · subst hn
          simp [retry_with_max_attempts] at h
        · have hr : retry_with_max_attempts (n + 1) (Except.error e :: rest) =
              ((retry_with_max_attempts n rest).1,
               (retry_with_max_attempts n rest).2 + 1) := by
            simp [retry_with_max_attempts, hn]
          rw [hr] at h
          rw [List.take_succ_cons]
          exact List.mem_cons_of_mem _ (ih rest h)
      · have hr : retry_with_max_attempts (n + 1) (Except.ok w :: rest) =
            (Except.ok w, 1) := by
          simp [retry_with_max_attempts]
        rw [hr] at h
        simp at h
        subst h
        rw [List.take_succ_cons]
        exact List.mem_cons_self _ _

/-- Every response of a successful single attempt of
`multi_get_object_owners` carries data with an owner, and contributes its
`(object_id, (owner, version))` entry to the produced map. -/
theorem multi_get_object_owners_once_ok_mem
    (results : List MysObjectResponse) (m : List (Nat × Owner × Nat))
    (h : multi_get_object_owners_once results = .ok m) :
    ∀ r ∈ results, ∃ d o, r.data = some d ∧ d.owner = some o ∧
      (d.object_id, o, d.version) ∈ m := by
  induction results generalizing m with
  | nil =>
    intro r hr
    simp at hr
  | cons r2 rest ih =>
    intro r hr
    unfold multi_get_object_owners_once at h
    split at h
    · exact absurd h (by simp)
    · rename_i d hd
      split at h
      · exact absurd h (by simp)
      · rename_i o ho
        split at h
        · exact absurd h (by simp)
        · rename_i m2 hrec
          have hm : m = (d.object_id, o, d.version) :: m2 := by
            injection h with h2
            exact h2.symm
          subst hm
          rcases List.mem_cons.mp hr with h1 | h1
          · subst h1
            exact ⟨d, o, hd, ho, List.mem_cons_self _ _⟩
          · obtain ⟨d2, o2, hd2, ho2, hm2⟩ := ih m2 hrec r h1
            exact ⟨d2, o2, hd2, ho2, List.mem_cons_of_mem _ hm2⟩

/-- A single attempt of `multi_get_object_owners` fails outright as soon as
any queried object comes back without data or without an owner. -/
theorem multi_get_object_owners_once_err
    (results : List MysObjectResponse) (r : MysObjectResponse)
    (hr : r ∈ results)
    (hbad : r.data = none ∨ ∃ d, r.data = some d ∧ d.owner = none) :
    ∃ e, multi_get_object_owners_once results = .error e := by
  induction results with
  | nil => simp at hr
  | cons r2 rest ih =>
    rcases List.mem_cons.mp hr with h1 | h1
    · subst h1
      rcases hbad with hb | ⟨d, hd, ho⟩
      · exact ⟨"Failed to get object owner: no data",
          by simp [multi_get_object_owners_once, hb]⟩
      · exact ⟨"Failed to get object owner: no owner",
          by simp [multi_get_object_owners_once, hd, ho]⟩
    · obtain ⟨e, he⟩ := ih h1
      rcases hd2 : r2.data with _ | d2
      · exact ⟨"Failed to get object owner: no data",
          by simp [multi_get_object_owners_once, hd2]⟩
      · rcases ho2 : d2.owner with _ | o2
        · exact ⟨"Failed to get object owner: no owner",
            by simp [multi_get_object_owners_once, hd2, ho2]⟩
        · exact ⟨e, by simp [multi_get_object_owners_once, hd2, ho2, he]⟩

/-- C7: `multi_get_object_owners` attempts the batched chain read at most 3
times; any success is produced by one of the first three attempts; a
successful attempt maps every queried object that came back with data and an
owner to that object's `(owner, version)`; and an attempt in which any
object comes back without data or without an owner fails with an error
rather than returning a partial map. -/
theorem multi_get_object_owners_spec
    (attempts : List (List MysObjectResponse)) :
    (multi_get_object_owners attempts).2 ≤ 3 ∧
    (∀ m, (multi_get_object_owners attempts).1 = .ok m →
      ∃ results ∈ attempts.take 3,
        multi_get_object_owners_once results = .ok m) ∧
    (∀ results m, multi_get_object_owners_once results = .ok m →
      ∀ r ∈ results, ∃ d o, r.data = some d ∧ d.owner = some o ∧
        (d.object_id, o, d.version) ∈ m) ∧
    (∀ results r, r ∈ results →
      (r.data = none ∨ ∃ d, r.data = some d ∧ d.owner = none) →
      ∃ e, multi_get_object_owners_once results = .error e) := by
  refine ⟨retry_with_max_attempts_le 3 _, ?_, ?_, ?_⟩
  · intro m hm
    have hmem := retry_with_max_attempts_ok_mem 3 _ _ hm
    rw [← List.map_take] at hmem
    obtain ⟨results, hmem2, heq⟩ := List.mem_map.mp hmem
    exact ⟨results, hmem2, heq⟩
  · intro results m h r hr
    exact multi_get_object_owners_once_ok_mem results m h r hr
  · intro results r hr hbad
    exact multi_get_object_owners_once_err results r hr hbad

/-- A response with no data at all. -/
def owner_resp_bad : MysObjectResponse := { data := none }

/-- A response carrying data and an address owner. -/
def owner_resp_good : MysObjectResponse :=
  { data := some { object_id := 4, version := 2, digest := 0,
                   owner := some (.addressOwner ⟨8⟩), bcs := none } }

/-- Witness for C7: on a trace whose first attempt contains a data-less
response and whose second is clean, the call uses at most 3 attempts, the
bad attempt errors, and the clean attempt maps its object to its owner and
version. -/
theorem multi_get_object_owners_spec_witness :
    (multi_get_object_owners [[owner_resp_bad], [owner_resp_good]]).2 ≤ 3 ∧
    (∃ e, multi_get_object_owners_once [owner_resp_bad] = .error e) ∧
    (∀ r ∈ [owner_resp_good], ∃ d o, r.data = some d ∧ d.owner = some o ∧
      (d.object_id, o, d.version) ∈ [(4, Owner.addressOwner ⟨8⟩, 2)]) := by
  have h := multi_get_object_owners_spec [[owner_resp_bad], [owner_resp_good]]
  refine ⟨h.1, ?_, ?_⟩
  · exact h.2.2.2 [owner_resp_bad] owner_resp_bad (by simp) (Or.inl rfl)
  · exact h.2.2.1 [owner_resp_good] _ rfl

/-- C8: on every proper pagination trace (every page but the last announces
a next page, the last does not),
`get_all_owned_mys_coins_above_balance_threshold` returns exactly the coins
of the returned pages whose balance is at least the threshold: the result is
the threshold-filter of all pages' coins, so every returned coin with
balance at or above the threshold appears and no coin below it does. -/
theorem get_all_owned_coins_above_threshold_spec (balance_threshold : Nat)
    (pages : List CoinPage) (h : proper_pagination pages) :
    get_all_owned_mys_coins_above_balance_threshold balance_threshold pages =
      ((pages.map CoinPage.data).flatten).filter
        (fun c => balance_threshold ≤ c.balance) ∧
    ∀ c, c ∈ get_all_owned_mys_coins_above_balance_threshold
        balance_threshold pages ↔
      ((∃ page ∈ pages, c ∈ page.data) ∧ balance_threshold ≤ c.balance) := by
  have hmain : ∀ ps : List CoinPage, proper_pagination ps →
      get_all_owned_mys_coins_above_balance_threshold balance_threshold ps =
        ((ps.map CoinPage.data).flatten).filter
          (fun c => balance_threshold ≤ c.balance) := by
    intro ps
    induction ps with
    | nil =>
      intro hps
      exact False.elim hps
    | cons p rest ih =>
      intro hps
      rcases rest with _ | ⟨q, rs⟩
      · have hp : p.has_next_page = false := hps
        conv_lhs => rw [get_all_owned_mys_coins_above_balance_threshold]
        rw [if_neg (by simp [hp])]
        simp
      · have hp : p.has_next_page = true := hps.1
        have hrest := ih hps.2
        conv_lhs => rw [get_all_owned_mys_coins_above_balance_threshold]
        rw [if_pos hp, hrest]
        simp [List.filter_append]
  refine ⟨hmain pages h, ?_⟩
  intro c
  rw [hmain pages h]
  simp only [List.mem_filter, List.mem_flatten, List.mem_map, decide_eq_true_eq]
  constructor
  · rintro ⟨⟨l, ⟨page, hpage, hl⟩, hc⟩, hbal⟩
    subst hl
    exact ⟨⟨page, hpage, hc⟩, hbal⟩
  · rintro ⟨⟨page, hpage, hc⟩, hbal⟩
    exact ⟨⟨page.data, ⟨page, hpage, rfl⟩, hc⟩, hbal⟩

/-- First page of the C8 witness trace. -/
def page_one : CoinPage :=
  { data := [{ object_ref := ⟨1, 1, 1⟩, balance := 5 },
             { object_ref := ⟨2, 1, 1⟩, balance := 15 }],
    has_next_page := true }

/-- Last page of the C8 witness trace. -/
def page_two : CoinPage :=
  { data := [{ object_ref := ⟨3, 1, 1⟩, balance := 10 }],
    has_next_page := false }

/-- Witness for C8: with threshold 10, the coin of balance 5 is dropped and
the coins of balances 15 and 10 (at the threshold) are kept, in page order. -/
theorem get_all_owned_coins_above_threshold_spec_witness :
    get_all_owned_mys_coins_above_balance_threshold 10 [page_one, page_two] =
      [{ object_ref := ⟨2, 1, 1⟩, balance := 15 },
       { object_ref := ⟨3, 1, 1⟩, balance := 10 }] := by
  have h := get_all_owned_coins_above_threshold_spec 10 [page_one, page_two]
    ⟨rfl, rfl⟩
  rw [h.1]
  rfl
